import Mathlib

/-!
Shallow embedding of `tukui-mirror-script` (`src/main.go`), a Go program that
mirrors Tukui addon releases into git repositories and GitHub releases.

Go panics are modelled as `Except String` errors carrying the panic message
(`panicOnErr` produces `"failed while <doing>: <err>"`, `ensure` produces its
message verbatim).  Machine `int`s are modelled as unbounded `Int` (no value in
this program approaches 64-bit overflow).  Go strings are modelled as Lean
`String`s.
-/

namespace TukuiMirror

/-- The addon descriptor deserialised from the Tukui API (`type Addon`). -/
structure Addon where
  Slug      : String
  Name      : String
  Url       : String
  Version   : String
  PatchList : List String
deriving Repr, DecidableEq

/-- Digit run to a natural number, most significant first. -/
def digitsVal (l : List Char) : Nat :=
  l.foldl (fun acc c => 10 * acc + (c.toNat - '0'.toNat)) 0

/-- Go `strconv.Atoi`: an optional sign followed by one or more digits.
The error message mirrors Go's `strconv` error text.  (Go additionally range
checks against 64-bit `int`; values here are unbounded, which is faithful for
every input this program can meet.) -/
def goAtoi (s : String) : Except String Int :=
  let err : Except String Int :=
    .error ("strconv.Atoi: parsing \"" ++ s ++ "\": invalid syntax")
  match s.data with
  | [] => err
  | c :: rest =>
    let (neg, ds) :=
      if c = '-' then (true, rest)
      else if c = '+' then (false, rest)
      else (false, c :: rest)
    if ds = [] then err
    else if ds.all Char.isDigit then
      .ok (if neg then -(digitsVal ds : Int) else (digitsVal ds : Int))
    else err

/-- Go `strings.Join`. -/
def joinWith (sep : String) : List String → String
  | [] => ""
  | [x] => x
  | x :: y :: xs => x ++ sep ++ joinWith sep (y :: xs)

/-- Split a character list around every occurrence of `c`
(Go `strings.Split` for a one-character separator). -/
def splitChar (c : Char) : List Char → List (List Char)
  | [] => [[]]
  | x :: xs =>
    let r := splitChar c xs
    if x = c then [] :: r
    else
      match r with
      | [] => [[x]]
      | y :: ys => (x :: y) :: ys

/-- Go `strings.SplitN s sep n` for a one-character separator and `n > 0`:
at most `n` substrings, the last one holding the unsplit remainder. -/
def goSplitN (s : String) (sep : Char) (n : Nat) : List String :=
  let parts := (splitChar sep s.data).map List.asString
  if parts.length ≤ n then parts
  else parts.take (n - 1) ++ [joinWith ([sep].asString) (parts.drop (n - 1))]

/-- `patch_to_flavour` (main.go:71-81).  Go takes `patch[:2]`; on a string
shorter than two characters this is a runtime slice-bounds panic, modelled as
an error carrying Go's runtime panic message. -/
def patch_to_flavour (patch : String) : Except String String :=
  if patch.length < 2 then
    .error "runtime error: slice bounds out of range"
  else
    let p2 := (patch.data.take 2).asString
    if p2 = "1." then .ok "classic"
    else if p2 = "2." then .ok "classic-tbc"
    else if p2 = "3." then .ok "classic-wotlk"
    else .ok "mainline"

/-- `patch_to_interface` (main.go:84-92): split on `.` into at most three
components, require at least two, parse the first two as integers, return
`10000*major + 100*minor`. -/
def patch_to_interface (patch : String) : Except String Int :=
  match goSplitN patch '.' 3 with
  | b0 :: b1 :: _ =>
    match goAtoi b0 with
    | .error e => .error ("failed while parsing major portion of game version: " ++ e)
    | .ok major =>
      match goAtoi b1 with
      | .error e => .error ("failed while parsing minor portion of game version: " ++ e)
      | .ok minor => .ok (10000 * major + 100 * minor)
  | _ => .error ("failed to parse game version: " ++ patch)

/-! The `release.json` template of `gen_release_json` (main.go:168-185), the Go
format strings split at their interpolation points. -/

def json_tmpl_doc_head : String := "\x7b\n    \"releases\": ["

def json_tmpl_entry_name : String := "\n        \x7b\n            \"name\": \""

def json_tmpl_entry_version : String := "\",\n            \"version\": \""

def json_tmpl_entry_filename : String := "\",\n            \"filename\": \""

def json_tmpl_entry_nolib : String := "\",\n            \"nolib\": "

def json_tmpl_entry_meta : String := ",\n            \"metadata\": ["

def json_tmpl_entry_tail : String := "\n            ]\n        \x7d"

def json_tmpl_doc_tail : String := "\n    ]\n\x7d\n"

/-- The per-patch `release_flavour_json` template (main.go:181-185), applied to
a flavour and an interface id. -/
def release_flavour_json (flavour : String) (iface : Int) : String :=
  "\n                \x7b\n                    \"flavor\": \"" ++ flavour
    ++ "\",\n                    \"interface\": " ++ toString iface
    ++ "\n                \x7d"

/-- The loop body of `gen_release_json` (main.go:187-192): one rendered
metadata fragment per patch, in `PatchList` order; the first failing patch
aborts (flavour computed before interface, as in the source). -/
def gen_metadata : List String → Except String (List String)
  | [] => .ok []
  | patch :: rest => do
    let flavour ← patch_to_flavour patch
    let iface ← patch_to_interface patch
    let tail ← gen_metadata rest
    pure (release_flavour_json flavour iface :: tail)

/-- `gen_release_json` (main.go:167-195): verbatim string interpolation of the
addon's name, version and the artifact filename into the template, with the
metadata fragments joined by `", "`.  (`addon_output_path` is a parameter of
the Go function that its body never uses.) -/
def gen_release_json (addon : Addon) (addon_output_path : String)
    (zip_output_filename : String) : Except String String := do
  let metadata ← gen_metadata addon.PatchList
  let metadata_json := joinWith ", " metadata
  pure (json_tmpl_doc_head ++ json_tmpl_entry_name ++ addon.Name
    ++ json_tmpl_entry_version ++ addon.Version
    ++ json_tmpl_entry_filename ++ zip_output_filename
    ++ json_tmpl_entry_nolib ++ "false"
    ++ json_tmpl_entry_meta ++ metadata_json
    ++ json_tmpl_entry_tail ++ json_tmpl_doc_tail)

/-! Spec-side view of the metadata document (the external schema of spec §6):
a structured document with release entries, each carrying a name, version,
filename, a `nolib` boolean and a list of `(flavor, interface)` pairs. -/

/-- One element of a release's `metadata` array in the external schema. -/
structure MetaEntry where
  flavor : String
  interfaceId : Int
deriving Repr, DecidableEq

/-- One release entry of the external schema. -/
structure ReleaseEntry where
  name : String
  version : String
  filename : String
  nolib : Bool
  metadata : List MetaEntry
deriving Repr, DecidableEq

/-- The external schema document: a list of release entries. -/
structure ReleaseDoc where
  releases : List ReleaseEntry
deriving Repr, DecidableEq

/-- Structured counterpart of `gen_metadata`: one `MetaEntry` per patch,
computed by `patch_to_flavour` and `patch_to_interface`. -/
def doc_metadata : List String → Except String (List MetaEntry)
  | [] => .ok []
  | p :: rest => do
    let f ← patch_to_flavour p
    let i ← patch_to_interface p
    let t ← doc_metadata rest
    pure (⟨f, i⟩ :: t)

/-- The structured document the schema prescribes for one addon and artifact
file name: exactly one release entry, `nolib = false`, one metadata element
per patch in `PatchList` order. -/
def release_doc_of (addon : Addon) (zip_output_filename : String) :
    Except String ReleaseDoc := do
  let md ← doc_metadata addon.PatchList
  pure ⟨[⟨addon.Name, addon.Version, zip_output_filename, false, md⟩]⟩

/-- Textual rendering of one metadata element, in the template's layout. -/
def renderMetaEntry (e : MetaEntry) : String :=
  release_flavour_json e.flavor e.interfaceId

/-- Textual rendering of one release entry, in the template's layout. -/
def renderEntry (r : ReleaseEntry) : String :=
  json_tmpl_entry_name ++ r.name
    ++ json_tmpl_entry_version ++ r.version
    ++ json_tmpl_entry_filename ++ r.filename
    ++ json_tmpl_entry_nolib ++ (if r.nolib then "true" else "false")
    ++ json_tmpl_entry_meta ++ joinWith ", " (r.metadata.map renderMetaEntry)
    ++ json_tmpl_entry_tail

/-- Textual rendering of a schema document, in the template's layout. -/
def renderDoc (d : ReleaseDoc) : String :=
  json_tmpl_doc_head ++ joinWith "," (d.releases.map renderEntry)
    ++ json_tmpl_doc_tail

/-! JSON string escaping, for comparing the raw interpolation against a
schema-conformant serialisation. -/

/-- A JSON string metacharacter: double quote or backslash. -/
def isJsonMeta (c : Char) : Bool := c = '"' ∨ c = '\\'

/-- Escape every metacharacter by prefixing a backslash. -/
def escChars : List Char → List Char
  | [] => []
  | c :: r => if isJsonMeta c then '\\' :: c :: escChars r else c :: escChars r

/-- JSON string-body escaping. -/
def jsonEscape (s : String) : String := (escChars s.data).asString

/-- Does the string contain a JSON string metacharacter? -/
def hasJsonMeta (s : String) : Bool := s.data.any isJsonMeta

/-- Count of metacharacters in a string. -/
def metaCount (s : String) : Nat := (s.data.filter isJsonMeta).length

/-- Like `renderMetaEntry`, but with the flavor JSON-escaped. -/
def renderMetaEntryEsc (e : MetaEntry) : String :=
  release_flavour_json (jsonEscape e.flavor) e.interfaceId

/-- Like `renderEntry`, but with every interpolated string field
JSON-escaped. -/
def renderEntryEsc (r : ReleaseEntry) : String :=
  json_tmpl_entry_name ++ jsonEscape r.name
    ++ json_tmpl_entry_version ++ jsonEscape r.version
    ++ json_tmpl_entry_filename ++ jsonEscape r.filename
    ++ json_tmpl_entry_nolib ++ (if r.nolib then "true" else "false")
    ++ json_tmpl_entry_meta ++ joinWith ", " (r.metadata.map renderMetaEntryEsc)
    ++ json_tmpl_entry_tail

/-- Schema-conformant serialisation of a document: the template's layout with
every interpolated string field JSON-escaped. -/
def renderDocEsc (d : ReleaseDoc) : String :=
  json_tmpl_doc_head ++ joinWith "," (d.releases.map renderEntryEsc)
    ++ json_tmpl_doc_tail

/-! Effectful layer.  Every external interaction (shell command, HTTP fetch,
file write, GitHub API call) is mediated by a `World` of oracles, and every
performed side effect is recorded as an event; a Go panic aborts with the
panic message, leaving the events performed so far. -/

/-- Outcome of `cmd.Run()` in `run_cmd` (main.go:105): the process exited
with a status code, or running failed with an error that is not an
`exec.ExitError` (e.g. the process could not be started). -/
inductive CmdOutcome
  | exited (code : Int) (out err : String)
  | startFailed (out err : String)
deriving Repr, DecidableEq

/-- Outcome of `http.Get`: a transport error, or a response with a status
code and a possible body-read error. -/
inductive HttpRes
  | transportErr (msg : String)
  | resp (status : Int) (readErr : Option String)
deriving Repr, DecidableEq

/-- Observable side effects of the program. -/
inductive Ev
  | RunCmd (command dir : String)
  | HttpGet (url : String)
  | WriteZip (path : String)
  | WriteReleaseJson (path content : String)
  | CreateRelease (slug tag : String)
  | UploadAsset (slug name mediaType : String)
deriving Repr, DecidableEq

/-- Environment oracles: what each external interaction would return. -/
structure World where
  cmdResult : String → String → CmdOutcome
  fileExists : String → Bool
  httpGet : String → HttpRes
  writeFileErr : String → Option String
  absPath : String → String
  createReleaseErr : String → String → Option String
  openErr : String → Option String
  uploadErr : String → Option String

/-- Go `strings.Contains`. -/
def containsSub (s sub : String) : Bool :=
  s.data.tails.any (fun t => sub.data.isPrefixOf t)

/-- Go `strings.TrimSpace` (ASCII whitespace). -/
def isSpaceGo (c : Char) : Bool :=
  c = ' ' ∨ c = '\t' ∨ c = '\n' ∨ c = '\r' ∨ c = '\x0b' ∨ c = '\x0c'

/-- Go `strings.TrimSpace`. -/
def goTrim (s : String) : String :=
  ((s.data.dropWhile isSpaceGo).reverse.dropWhile isSpaceGo).reverse.asString

/-- `run_cmd` (main.go:94-114): run a shell command, returning the return
code and trimmed stdout/stderr.  `rc` starts at `0` and is only overwritten
when the error is an `exec.ExitError`; any other error from `cmd.Run()`
leaves `rc = 0`. -/
def run_cmd_go (w : World) (command path : String) : Int × String × String :=
  match w.cmdResult command path with
  | .exited code out err => (code, goTrim out, goTrim err)
  | .startFailed out err => (0, goTrim out, goTrim err)

/-- `run_all_cmd` (main.go:116-121): run commands in order, aborting at the
first non-zero return code. -/
def run_all_cmd (w : World) (command_list : List String) (cwd : String) :
    List Ev × Option String :=
  match command_list with
  | [] => ([], none)
  | cmd :: rest =>
    let r := run_cmd_go w cmd cwd
    if r.1 = 0 then
      let p := run_all_cmd w rest cwd
      (.RunCmd cmd cwd :: p.1, p.2)
    else
      ([.RunCmd cmd cwd], some ("command \x27" ++ cmd ++ "\x27 failed: " ++ r.2.2))

/-- The tag-query command of `fetch_addon_version` (main.go:206). -/
def describe_cmd : String := "git describe --tags --abbrev=0"

/-- `fetch_addon_version` (main.go:205-215): most recent tag of the working
copy; a repository without tags (recognised by the two `git` fatal messages)
yields `""`; any other failure aborts. -/
def fetch_addon_version (w : World) (addon_output_dir : String) :
    List Ev × Except String String :=
  let r := run_cmd_go w describe_cmd addon_output_dir
  let evs := [Ev.RunCmd describe_cmd addon_output_dir]
  if r.1 ≠ 0 then
    if containsSub r.2.2 "fatal: No names found, cannot describe anything."
        ∨ containsSub r.2.2 "fatal: No tags can describe" then
      (evs, .ok "")
    else
      (evs, .error ("failed to fetch latest tag: " ++ r.2.2))
  else
    (evs, .ok r.2.1)

/-- `fetch_repo` (main.go:227-233): destroy the local copy and clone fresh. -/
def fetch_repo (w : World) (addon : Addon) (script_path : String) :
    List Ev × Option String :=
  run_all_cmd w
    ["rm -rf " ++ addon.Slug,
     "git clone ssh://git@github.com/ogri-la/" ++ addon.Slug]
    script_path

/-- `tag_addon` (main.go:217-225): empty-allowed commit, tag, push branch,
push tags. -/
def tag_addon (w : World) (version addon_output_dir : String) :
    List Ev × Option String :=
  run_all_cmd w
    ["git commit -m " ++ version ++ " --allow-empty",
     "git tag " ++ version,
     "git push",
     "git push --tags"]
    addon_output_dir

/-- `download_addon` (main.go:143-165): deterministic cache path
`<output_path>/<slug>--<version>.zip`; return it untouched when the file
exists, otherwise fetch `addon.Url`, require status 200 and write the body.
(`filepath.Join` is modelled as `/`-concatenation.) -/
def download_addon (w : World) (addon : Addon) (output_path : String) :
    List Ev × Except String String :=
  let addon_filename := addon.Slug ++ "--" ++ addon.Version ++ ".zip"
  let zip_output_path := output_path ++ "/" ++ addon_filename
  if w.fileExists zip_output_path then
    ([], .ok zip_output_path)
  else
    match w.httpGet addon.Url with
    | .transportErr m =>
      ([.HttpGet addon.Url], .error ("failed while downloading addon to file: " ++ m))
    | .resp status readErr =>
      if status ≠ 200 then
        ([.HttpGet addon.Url], .error "non-200 response downloading zip file")
      else
        match readErr with
        | some m =>
          ([.HttpGet addon.Url], .error ("failed while reading bytes from response body: " ++ m))
        | none =>
          match w.writeFileErr zip_output_path with
          | some m =>
            ([.HttpGet addon.Url], .error ("failed while writing bytes to zip file: " ++ m))
          | none =>
            ([.HttpGet addon.Url, .WriteZip zip_output_path], .ok zip_output_path)

/-- `write_release_json` (main.go:197-203): write the document to
`release.json` inside the working copy. -/
def write_release_json (w : World) (release_json addon_output_dir : String) :
    List Ev × Except String String :=
  let release_json_output_path := addon_output_dir ++ "/release.json"
  match w.writeFileErr release_json_output_path with
  | some m => ([], .error ("failed while writing release.json to file: " ++ m))
  | none => ([.WriteReleaseJson release_json_output_path release_json], .ok release_json_output_path)

/-- Go `filepath.Ext`: suffix from the final dot of the final path element;
empty when that element has no dot.  Scans the reversed character list. -/
def extScan (acc : List Char) : List Char → List Char
  | [] => []
  | c :: rest =>
    if c = '/' then []
    else if c = '.' then '.' :: acc
    else extScan (c :: acc) rest

/-- Go `filepath.Ext`. -/
def goExt (path : String) : String := (extScan [] path.data.reverse).asString

/-- Go `strings.ToLower` (ASCII-faithful). -/
def goToLower (s : String) : String := (s.data.map Char.toLower).asString

/-- Go `filepath.Base`. -/
def goBase (path : String) : String :=
  if path = "" then "."
  else
    let stripped := path.data.reverse.dropWhile (· = '/')
    if stripped = [] then "/"
    else ((stripped.takeWhile (· ≠ '/')).reverse).asString

/-- `guess_media_type` (main.go:235-244): content type from the lower-cased
file extension; anything but `.zip`/`.json` panics. -/
def guess_media_type (path : String) : Except String String :=
  let ext := goToLower (goExt path)
  if ext = ".zip" then .ok "application/zip"
  else if ext = ".json" then .ok "application/json"
  else .error ("failed to guess mime for given path: " ++ path)

/-- The asset loop of `create_tag_release` (main.go:262-272): for each asset
in order, infer the content type (panicking on an unknown extension), open
the file, upload it.  A failure aborts the remaining uploads. -/
def upload_assets (w : World) (slug : String) : List String → List Ev × Except String Unit
  | [] => ([], .ok ())
  | asset_path :: rest =>
    match guess_media_type asset_path with
    | .error m => ([], .error m)
    | .ok mediaType =>
      match w.openErr asset_path with
      | some m => ([], .error ("failed while opening asset: " ++ m))
      | none =>
        match w.uploadErr asset_path with
        | some m => ([], .error ("failed while uploading asset: " ++ m))
        | none =>
          let p := upload_assets w slug rest
          (.UploadAsset slug (goBase asset_path) mediaType :: p.1, p.2)

/-- `create_tag_release` (main.go:246-273): create the GitHub release object
tagged `addon.Version` (marked latest), then upload each asset in order. -/
def create_tag_release (w : World) (addon : Addon) (token : String)
    (asset_list : List String) : List Ev × Except String Unit :=
  match w.createReleaseErr addon.Slug addon.Version with
  | some m => ([], .error ("failed while creating a Github release: " ++ m))
  | none =>
    let p := upload_assets w addon.Slug asset_list
    (.CreateRelease addon.Slug addon.Version :: p.1, p.2)

/-- `mirror` (main.go:283-307): for each fetched addon, reclone its mirror
repository, query the most recent tag, skip when it equals `addon.Version`,
otherwise download the artifact, write `release.json`, commit/tag/push, and
create the hosted release with the two assets.  Returns the event trace and
`some msg` when a panic aborted the run. -/
def mirror (w : World) (script_path token : String) : List Addon → List Ev × Option String
  | [] => ([], none)
  | addon :: rest =>
    let p1 := fetch_repo w addon script_path
    match p1.2 with
    | some m => (p1.1, some m)
    | none =>
      let addon_output_dir := w.absPath addon.Slug
      let p2 := fetch_addon_version w addon_output_dir
      match p2.2 with
      | .error m => (p1.1 ++ p2.1, some m)
      | .ok current_version =>
        if current_version = addon.Version then
          let p := mirror w script_path token rest
          (p1.1 ++ p2.1 ++ p.1, p.2)
        else
          let p3 := download_addon w addon addon_output_dir
          match p3.2 with
          | .error m => (p1.1 ++ p2.1 ++ p3.1, some m)
          | .ok zip_output_path =>
            let zip_output_filename := goBase zip_output_path
            match gen_release_json addon addon_output_dir zip_output_filename with
            | .error m => (p1.1 ++ p2.1 ++ p3.1, some m)
            | .ok release_json =>
              let p4 := write_release_json w release_json addon_output_dir
              match p4.2 with
              | .error m => (p1.1 ++ p2.1 ++ p3.1 ++ p4.1, some m)
              | .ok release_json_path =>
                let p5 := tag_addon w addon.Version addon_output_dir
                match p5.2 with
                | some m => (p1.1 ++ p2.1 ++ p3.1 ++ p4.1 ++ p5.1, some m)
                | none =>
                  let p6 := create_tag_release w addon token
                    [zip_output_path, release_json_path]
                  match p6.2 with
                  | .error m => (p1.1 ++ p2.1 ++ p3.1 ++ p4.1 ++ p5.1 ++ p6.1, some m)
                  | .ok _ =>
                    let p := mirror w script_path token rest
                    (p1.1 ++ p2.1 ++ p3.1 ++ p4.1 ++ p5.1 ++ p6.1 ++ p.1, p.2)

/-- Number of successful asset uploads in a trace. -/
def uploadsOf (evs : List Ev) : Nat :=
  (evs.filter fun e => match e with | .UploadAsset _ _ _ => true | _ => false).length

/-! Concrete fixtures for evaluating the semantics at specific inputs. -/

/-- A sample addon descriptor. -/
def addonElvui : Addon :=
  ⟨"elvui", "ElvUI", "https://api.tukui.org/v1/download/elvui", "13.33", ["10.1.0"]⟩

/-- A world where every external interaction succeeds and the freshly cloned
repository's most recent tag is `v0`. -/
def wAllOk : World where
  cmdResult := fun c _ => if c = describe_cmd then .exited 0 "v0" "" else .exited 0 "" ""
  fileExists := fun _ => false
  httpGet := fun _ => .resp 200 none
  writeFileErr := fun _ => none
  absPath := fun s => "/work/" ++ s
  createReleaseErr := fun _ _ => none
  openErr := fun _ => none
  uploadErr := fun _ => none

/-- Like `wAllOk`, but the most recent tag is already `13.33`. -/
def wSkip : World :=
  { wAllOk with
    cmdResult := fun c _ => if c = describe_cmd then .exited 0 "13.33" "" else .exited 0 "" "" }

/-- Like `wAllOk`, but every shell command fails to start (an error that is
not an exit-status error). -/
def wStartFail : World :=
  { wAllOk with cmdResult := fun _ _ => .startFailed "" "bash: not found" }

/-- Like `wAllOk`, but the artifact's cache file already exists. -/
def wCached : World := { wAllOk with fileExists := fun _ => true }

/-- Like `wAllOk`, but every HTTP fetch answers with status 404. -/
def wHttp404 : World := { wAllOk with httpGet := fun _ => .resp 404 none }

/-!  Theorems. -/

/-- C3: for every patch string splitting (Go `SplitN`, limit 3) into at least
two `.`-separated components whose first two parse as integers `major` and
`minor`, `patch_to_interface` returns `10000*major + 100*minor`, ignoring any
third component (`"10.1.5"` yields `100100`, `"1.14.3"` yields `11400`); with
fewer than two components, or a non-numeric major or minor, it fails with the
`MalformedVersion` panic of the corresponding parse step. -/
theorem patch_to_interface_spec (patch b0 b1 : String) (rest : List String)
    (hsplit : goSplitN patch '.' 3 = b0 :: b1 :: rest) :
    (∀ major minor : Int, goAtoi b0 = .ok major → goAtoi b1 = .ok minor →
      patch_to_interface patch = .ok (10000 * major + 100 * minor))
    ∧ (∀ e, goAtoi b0 = .error e →
        patch_to_interface patch
          = .error ("failed while parsing major portion of game version: " ++ e))
    ∧ (∀ major e, goAtoi b0 = .ok major → goAtoi b1 = .error e →
        patch_to_interface patch
          = .error ("failed while parsing minor portion of game version: " ++ e))
    ∧ (∀ p : String, (goSplitN p '.' 3).length ≤ 1 →
        patch_to_interface p = .error ("failed to parse game version: " ++ p))
    ∧ patch_to_interface "10.1.5" = .ok 100100
    ∧ patch_to_interface "1.14.3" = .ok 11400 := by
  refine ⟨?_, ?_, ?_, ?_, rfl, rfl⟩
  · intro major minor hmaj hmin
    simp [patch_to_interface, hsplit, hmaj, hmin]
  · intro e hmaj
    simp [patch_to_interface, hsplit, hmaj]
  · intro major e hmaj hmin
    simp [patch_to_interface, hsplit, hmaj, hmin]
  · intro p hlen
    unfold patch_to_interface
    match hp : goSplitN p '.' 3 with
    | [] => rfl
    | [x] => rfl
    | x :: y :: r => rw [hp] at hlen; simp at hlen

/-- Witness for C3 at `patch = "10.1.5"`. -/
theorem patch_to_interface_spec_witness :
    goSplitN "10.1.5" '.' 3 = ["10", "1", "5"]
    ∧ patch_to_interface "10.1.5" = .ok 100100 := by
  refine ⟨rfl, ?_⟩
  have h := (patch_to_interface_spec "10.1.5" "10" "1" ["5"] rfl).1 10 1 rfl rfl
  simpa using h

/-- C4: for every patch string of length at least 2, `patch_to_flavour` maps
prefix `"1."` to `classic`, `"2."` to `classic-tbc`, `"3."` to
`classic-wotlk`, and any other two-character prefix to `mainline`
(`"1.14.3"` yields `classic`, `"2.5.1"` yields `classic-tbc`, `"3.0.0"`
yields `classic-wotlk`, `"10.1.0"` yields `mainline`). -/
theorem patch_to_flavour_table (patch : String) (h : 2 ≤ patch.length) :
    ((patch.data.take 2).asString = "1." → patch_to_flavour patch = .ok "classic")
    ∧ ((patch.data.take 2).asString = "2." → patch_to_flavour patch = .ok "classic-tbc")
    ∧ ((patch.data.take 2).asString = "3." → patch_to_flavour patch = .ok "classic-wotlk")
    ∧ ((patch.data.take 2).asString ≠ "1." → (patch.data.take 2).asString ≠ "2." →
        (patch.data.take 2).asString ≠ "3." → patch_to_flavour patch = .ok "mainline")
    ∧ patch_to_flavour "1.14.3" = .ok "classic"
    ∧ patch_to_flavour "2.5.1" = .ok "classic-tbc"
    ∧ patch_to_flavour "3.0.0" = .ok "classic-wotlk"
    ∧ patch_to_flavour "10.1.0" = .ok "mainline" := by
  have hnl : ¬ patch.length < 2 := by omega
  refine ⟨?_, ?_, ?_, ?_, rfl, rfl, rfl, rfl⟩ <;> intro h1
  · simp [patch_to_flavour, hnl, h1]
  · simp [patch_to_flavour, hnl, h1]
  · simp [patch_to_flavour, hnl, h1]
  · intro h2 h3
    simp [patch_to_flavour, hnl, h1, h2, h3]

/-- Witness for C4 at `patch = "10.1.0"`. -/
theorem patch_to_flavour_table_witness :
    2 ≤ ("10.1.0" : String).length
    ∧ patch_to_flavour "10.1.0" = .ok "mainline" := by
  refine ⟨by decide, ?_⟩
  exact (patch_to_flavour_table "10.1.0" (by decide)).2.2.2.1 (by decide) (by decide) (by decide)

/-- C5: for every patch string shorter than 2 characters, `patch_to_flavour`
fails — the slice `patch[:2]` raises Go's fatal slice-bounds panic, the
failure the spec's error taxonomy files under `MalformedVersion` — rather
than reading out of bounds or returning a flavour. -/
theorem patch_to_flavour_short_fails (patch : String) (h : patch.length < 2) :
    patch_to_flavour patch = .error "runtime error: slice bounds out of range" := by
  simp [patch_to_flavour, h]

/-- Witness for C5 at `patch = "1"`. -/
theorem patch_to_flavour_short_fails_witness :
    ("1" : String).length < 2
    ∧ patch_to_flavour "1" = .error "runtime error: slice bounds out of range" :=
  ⟨by decide, patch_to_flavour_short_fails "1" (by decide)⟩

/-- The textual metadata fragments are the renderings of the structured
metadata entries. -/
theorem gen_metadata_eq (ps : List String) :
    gen_metadata ps = (doc_metadata ps).map (List.map renderMetaEntry) := by
  induction ps with
  | nil => rfl
  | cons p rest ih =>
    simp only [gen_metadata, doc_metadata, bind, Except.bind, ih]
    cases hf : patch_to_flavour p with
    | error e => rfl
    | ok f =>
      cases hi : patch_to_interface p with
      | error e => rfl
      | ok i =>
        cases hd : doc_metadata rest with
        | error e => simp [Except.map]
        | ok md => simp [Except.map, renderMetaEntry, pure, Except.pure]

/-- A successful `doc_metadata` has one entry per patch. -/
theorem doc_metadata_ok_length (ps : List String) (md : List MetaEntry)
    (h : doc_metadata ps = .ok md) : md.length = ps.length := by
  induction ps generalizing md with
  | nil => simp only [doc_metadata] at h; cases h; rfl
  | cons p rest ih =>
    simp only [doc_metadata, bind, Except.bind] at h
    cases hf : patch_to_flavour p with
    | error e => rw [hf] at h; cases h
    | ok f =>
      rw [hf] at h
      cases hi : patch_to_interface p with
      | error e => rw [hi] at h; cases h
      | ok i =>
        rw [hi] at h
        cases hd : doc_metadata rest with
        | error e => rw [hd] at h; cases h
        | ok md0 =>
          rw [hd] at h
          cases h
          simp [ih md0 hd]

/-- Each entry of a successful `doc_metadata` is computed from the patch at
the same position. -/
theorem doc_metadata_ok_get (ps : List String) (md : List MetaEntry)
    (h : doc_metadata ps = .ok md) :
    ∀ (i : Nat) (hi : i < ps.length) (hm : i < md.length),
      patch_to_flavour (ps.get ⟨i, hi⟩) = .ok ((md.get ⟨i, hm⟩).flavor)
      ∧ patch_to_interface (ps.get ⟨i, hi⟩) = .ok ((md.get ⟨i, hm⟩).interfaceId) := by
  induction ps generalizing md with
  | nil => intro i hi; simp at hi
  | cons p rest ih =>
    simp only [doc_metadata, bind, Except.bind] at h
    cases hf : patch_to_flavour p with
    | error e => rw [hf] at h; cases h
    | ok f =>
      rw [hf] at h
      cases hint : patch_to_interface p with
      | error e => rw [hint] at h; cases h
      | ok iv =>
        rw [hint] at h
        cases hd : doc_metadata rest with
        | error e => rw [hd] at h; cases h
        | ok md0 =>
          rw [hd] at h
          cases h
          intro i hi hm
          cases i with
          | zero => exact ⟨hf, hint⟩
          | succ j =>
            exact ih md0 hd j (Nat.lt_of_succ_lt_succ hi) (Nat.lt_of_succ_lt_succ hm)

/-- Core refinement: the string `gen_release_json` produces is the rendering
of the structured schema document. -/
theorem gen_eq_renderDoc (addon : Addon) (path fname : String) (doc : ReleaseDoc)
    (h : release_doc_of addon fname = .ok doc) :
    gen_release_json addon path fname = .ok (renderDoc doc) := by
  simp only [release_doc_of, bind, Except.bind] at h
  cases hd : doc_metadata addon.PatchList with
  | error e => rw [hd] at h; cases h
  | ok md =>
    rw [hd] at h
    cases h
    simp only [gen_release_json, bind, Except.bind, gen_metadata_eq, hd, Except.map]
    simp only [renderDoc, renderEntry, joinWith, List.map, pure, Except.pure]
    simp [String.append_assoc]

/-- C6: for every addon and artifact file name (whose patches the version
naming accepts), the rendered metadata document is the rendering of a
structured document holding exactly one release entry with the addon's name,
version, `filename` equal to the artifact file name, `nolib = false`, and a
metadata array with exactly one `(flavor, interface)` element per entry of
`PatchList`, in order, each computed by `patch_to_flavour` and
`patch_to_interface`; an empty `PatchList` yields an empty metadata array
(present in the document, not absent and not null). -/
theorem gen_release_json_schema (addon : Addon) (path fname : String)
    (doc : ReleaseDoc) (h : release_doc_of addon fname = .ok doc) :
    gen_release_json addon path fname = .ok (renderDoc doc)
    ∧ ∃ md : List MetaEntry,
        doc.releases = [⟨addon.Name, addon.Version, fname, false, md⟩]
        ∧ md.length = addon.PatchList.length
        ∧ (∀ (i : Nat) (hi : i < addon.PatchList.length) (hm : i < md.length),
            patch_to_flavour (addon.PatchList.get ⟨i, hi⟩)
                = .ok ((md.get ⟨i, hm⟩).flavor)
            ∧ patch_to_interface (addon.PatchList.get ⟨i, hi⟩)
                = .ok ((md.get ⟨i, hm⟩).interfaceId))
        ∧ (addon.PatchList = [] → md = []) := by
  refine ⟨gen_eq_renderDoc addon path fname doc h, ?_⟩
  simp only [release_doc_of, bind, Except.bind] at h
  cases hd : doc_metadata addon.PatchList with
  | error e => rw [hd] at h; cases h
  | ok md =>
    rw [hd] at h
    cases h
    refine ⟨md, rfl, doc_metadata_ok_length _ _ hd, doc_metadata_ok_get _ _ hd, ?_⟩
    intro hnil
    rw [hnil] at hd
    simp only [doc_metadata, pure] at hd
    cases hd
    rfl

/-- Witness for C6 at a concrete addon with two patches. -/
theorem gen_release_json_schema_witness :
    release_doc_of ⟨"elvui", "ElvUI", "u", "13.33", ["10.1.0", "1.14.3"]⟩ "elvui--13.33.zip"
      = .ok ⟨[⟨"ElvUI", "13.33", "elvui--13.33.zip", false,
          [⟨"mainline", 100100⟩, ⟨"classic", 11400⟩]⟩]⟩
    ∧ gen_release_json ⟨"elvui", "ElvUI", "u", "13.33", ["10.1.0", "1.14.3"]⟩
        "/out" "elvui--13.33.zip"
      = .ok (renderDoc ⟨[⟨"ElvUI", "13.33", "elvui--13.33.zip", false,
          [⟨"mainline", 100100⟩, ⟨"classic", 11400⟩]⟩]⟩) := by
  refine ⟨rfl, ?_⟩
  exact (gen_release_json_schema ⟨"elvui", "ElvUI", "u", "13.33", ["10.1.0", "1.14.3"]⟩
    "/out" "elvui--13.33.zip"
    ⟨[⟨"ElvUI", "13.33", "elvui--13.33.zip", false,
      [⟨"mainline", 100100⟩, ⟨"classic", 11400⟩]⟩]⟩ rfl).1

/-- Escaping adds one character per metacharacter. -/
theorem escChars_length (l : List Char) :
    (escChars l).length = l.length + (l.filter isJsonMeta).length := by
  induction l with
  | nil => rfl
  | cons c r ih =>
    cases hc : isJsonMeta c <;> simp [escChars, hc, ih] <;> omega

/-- Escaping a metacharacter-free list is the identity. -/
theorem escChars_clean (l : List Char) (h : l.any isJsonMeta = false) :
    escChars l = l := by
  induction l with
  | nil => rfl
  | cons c r ih =>
    simp only [List.any_cons, Bool.or_eq_false_iff] at h
    simp [escChars, h.1, ih h.2]

/-- Length of a JSON-escaped string. -/
theorem jsonEscape_length (s : String) :
    (jsonEscape s).length = s.length + metaCount s := by
  have h1 : (jsonEscape s).length = (escChars s.data).length :=
    List.length_asString _
  rw [h1, escChars_length]
  rfl

/-- Escaping a metacharacter-free string is the identity. -/
theorem jsonEscape_clean (s : String) (h : hasJsonMeta s = false) :
    jsonEscape s = s := by
  unfold jsonEscape
  rw [escChars_clean s.data h]
  exact String.asString_toList s

/-- A string with a metacharacter has positive metacharacter count. -/
theorem metaCount_pos (s : String) (h : hasJsonMeta s = true) : 0 < metaCount s := by
  simp only [hasJsonMeta, List.any_eq_true] at h
  obtain ⟨c, hc, hm⟩ := h
  have : c ∈ s.data.filter isJsonMeta := List.mem_filter.2 ⟨hc, hm⟩
  exact List.length_pos.2 (List.ne_nil_of_mem this)

/-- `patch_to_flavour` only ever returns one of the four flavour strings. -/
theorem patch_to_flavour_ok_values (p f : String) (h : patch_to_flavour p = .ok f) :
    f = "classic" ∨ f = "classic-tbc" ∨ f = "classic-wotlk" ∨ f = "mainline" := by
  unfold patch_to_flavour at h
  dsimp only at h
  split at h
  · cases h
  · split at h
    · cases h; exact Or.inl rfl
    · split at h
      · cases h; exact Or.inr (Or.inl rfl)
      · split at h
        · cases h; exact Or.inr (Or.inr (Or.inl rfl))
        · cases h; exact Or.inr (Or.inr (Or.inr rfl))

/-- Flavour strings carry no JSON metacharacter. -/
theorem patch_to_flavour_ok_clean (p f : String) (h : patch_to_flavour p = .ok f) :
    hasJsonMeta f = false := by
  rcases patch_to_flavour_ok_values p f h with h1 | h1 | h1 | h1 <;> subst h1 <;> decide

/-- Every flavour in a successful `doc_metadata` is metacharacter-free. -/
theorem doc_metadata_flavours_clean (ps : List String) (md : List MetaEntry)
    (h : doc_metadata ps = .ok md) :
    ∀ e ∈ md, hasJsonMeta e.flavor = false := by
  induction ps generalizing md with
  | nil =>
    simp only [doc_metadata, pure] at h
    cases h
    intro e he
    simp at he
  | cons p rest ih =>
    simp only [doc_metadata, bind, Except.bind] at h
    cases hf : patch_to_flavour p with
    | error e => rw [hf] at h; cases h
    | ok f =>
      rw [hf] at h
      cases hint : patch_to_interface p with
      | error e => rw [hint] at h; cases h
      | ok iv =>
        rw [hint] at h
        cases hd : doc_metadata rest with
        | error e => rw [hd] at h; cases h
        | ok md0 =>
          rw [hd] at h
          cases h
          intro e he
          rcases List.mem_cons.1 he with he1 | he1
          · subst he1; exact patch_to_flavour_ok_clean p f hf
          · exact ih md0 hd e he1

/-- On metacharacter-free flavours the escaped and the raw metadata rendering
agree. -/
theorem renderMeta_esc_eq (md : List MetaEntry)
    (h : ∀ e ∈ md, hasJsonMeta e.flavor = false) :
    md.map renderMetaEntryEsc = md.map renderMetaEntry := by
  induction md with
  | nil => rfl
  | cons e r ih =>
    have h1 := h e (List.mem_cons_self e r)
    simp only [List.map]
    rw [ih fun x hx => h x (List.mem_cons_of_mem e hx)]
    simp [renderMetaEntryEsc, renderMetaEntry, jsonEscape_clean _ h1]

/-- C10: `gen_release_json` builds the document by verbatim string
interpolation with no JSON escaping — the addon's name, its version and the
artifact filename are inserted character-for-character into the template — so
whenever one of these fields contains a JSON metacharacter (double quote or
backslash) the output differs from the schema-conformant (JSON-escaped)
serialisation of the document; the output conforms exactly when those fields
are metacharacter-free. -/
theorem gen_release_json_no_escaping (addon : Addon) (path fname : String)
    (doc : ReleaseDoc) (h : release_doc_of addon fname = .ok doc) :
    (∃ mdj : String, gen_release_json addon path fname
        = .ok (json_tmpl_doc_head ++ json_tmpl_entry_name ++ addon.Name
            ++ json_tmpl_entry_version ++ addon.Version
            ++ json_tmpl_entry_filename ++ fname
            ++ json_tmpl_entry_nolib ++ "false"
            ++ json_tmpl_entry_meta ++ mdj
            ++ json_tmpl_entry_tail ++ json_tmpl_doc_tail))
    ∧ (hasJsonMeta addon.Name = true ∨ hasJsonMeta addon.Version = true
        ∨ hasJsonMeta fname = true →
        gen_release_json addon path fname ≠ .ok (renderDocEsc doc))
    ∧ (hasJsonMeta addon.Name = false → hasJsonMeta addon.Version = false →
        hasJsonMeta fname = false →
        gen_release_json addon path fname = .ok (renderDocEsc doc)) := by
  have hgen := gen_eq_renderDoc addon path fname doc h
  simp only [release_doc_of, bind, Except.bind] at h
  cases hd : doc_metadata addon.PatchList with
  | error e => rw [hd] at h; cases h
  | ok md =>
    rw [hd] at h
    cases h
    have hclean := doc_metadata_flavours_clean addon.PatchList md hd
    have hmeta_eq := renderMeta_esc_eq md hclean
    refine ⟨⟨joinWith ", " (md.map renderMetaEntry), ?_⟩, ?_, ?_⟩
    · simp only [gen_release_json, bind, Except.bind, gen_metadata_eq, hd,
        Except.map, pure, Except.pure]
    · intro hmeta heq
      rw [hgen] at heq
      have heqs : renderDoc ⟨[⟨addon.Name, addon.Version, fname, false, md⟩]⟩
          = renderDocEsc ⟨[⟨addon.Name, addon.Version, fname, false, md⟩]⟩ :=
        Except.ok.inj heq
      have hlen := congrArg String.length heqs
      simp only [renderDoc, renderDocEsc, renderEntry, renderEntryEsc,
        List.map, joinWith, hmeta_eq, Bool.false_eq_true, if_false,
        String.length_append, jsonEscape_length] at hlen
      rcases hmeta with hm | hm | hm <;>
        have := metaCount_pos _ hm <;> omega
    · intro h1 h2 h3
      rw [hgen]
      simp only [renderDoc, renderDocEsc, renderEntry, renderEntryEsc,
        List.map, joinWith, hmeta_eq, jsonEscape_clean _ h1,
        jsonEscape_clean _ h2, jsonEscape_clean _ h3]

/-- Witness for C10: an addon whose name contains a double quote. -/
theorem gen_release_json_no_escaping_witness :
    release_doc_of ⟨"a", "Ev\"il", "u", "1.0", []⟩ "a--1.0.zip"
      = .ok ⟨[⟨"Ev\"il", "1.0", "a--1.0.zip", false, []⟩]⟩
    ∧ hasJsonMeta "Ev\"il" = true
    ∧ gen_release_json ⟨"a", "Ev\"il", "u", "1.0", []⟩ "/out" "a--1.0.zip"
        ≠ .ok (renderDocEsc ⟨[⟨"Ev\"il", "1.0", "a--1.0.zip", false, []⟩]⟩) := by
  refine ⟨rfl, by decide, ?_⟩
  exact (gen_release_json_no_escaping ⟨"a", "Ev\"il", "u", "1.0", []⟩ "/out" "a--1.0.zip"
    ⟨[⟨"Ev\"il", "1.0", "a--1.0.zip", false, []⟩]⟩ rfl).2.1 (Or.inl (by decide))

/-- C7: for every addon, when a file already exists at the deterministic
cache path `<output_path>/<slug>--<version>.zip`, `download_addon` returns
that path unchanged with no network request; otherwise it fetches
`addon.Url`, and a transport error or a non-200 status fails with the
`FetchFailed` panic. -/
theorem download_addon_spec (w : World) (addon : Addon) (output_path : String) :
    (w.fileExists (output_path ++ "/" ++ (addon.Slug ++ "--" ++ addon.Version ++ ".zip")) = true →
      download_addon w addon output_path
        = ([], .ok (output_path ++ "/" ++ (addon.Slug ++ "--" ++ addon.Version ++ ".zip"))))
    ∧ (w.fileExists (output_path ++ "/" ++ (addon.Slug ++ "--" ++ addon.Version ++ ".zip")) = false →
        (∀ m, w.httpGet addon.Url = .transportErr m →
          download_addon w addon output_path
            = ([.HttpGet addon.Url],
               .error ("failed while downloading addon to file: " ++ m)))
        ∧ (∀ (status : Int) (readErr : Option String),
            w.httpGet addon.Url = .resp status readErr → status ≠ 200 →
          download_addon w addon output_path
            = ([.HttpGet addon.Url], .error "non-200 response downloading zip file"))) := by
  constructor
  · intro hex
    simp [download_addon, hex]
  · intro hex
    constructor
    · intro m hm
      simp [download_addon, hex, hm]
    · intro status readErr hr hs
      simp [download_addon, hex, hr, hs]

/-- Witness for C7: a cache hit returns the path with no events, and a 404
on a cache miss fails after the single fetch. -/
theorem download_addon_spec_witness :
    wCached.fileExists "/out/elvui--13.33.zip" = true
    ∧ download_addon wCached addonElvui "/out" = ([], .ok "/out/elvui--13.33.zip")
    ∧ wHttp404.fileExists "/out/elvui--13.33.zip" = false
    ∧ download_addon wHttp404 addonElvui "/out"
        = ([.HttpGet addonElvui.Url], .error "non-200 response downloading zip file") := by
  refine ⟨rfl, ?_, rfl, ?_⟩
  · exact (download_addon_spec wCached addonElvui "/out").1 rfl
  · exact ((download_addon_spec wHttp404 addonElvui "/out").2 rfl).2 404 none rfl (by decide)

/-- C9: when running a shell command fails with an error that is not an
exit-status error (e.g. the process could not be started), `run_cmd` returns
return code 0, so `run_all_cmd` treats the command as having succeeded and
continues with the next command instead of aborting. -/
theorem run_cmd_start_error_treated_as_success (w : World) (cmd cwd out err : String)
    (rest : List String) (h : w.cmdResult cmd cwd = .startFailed out err) :
    run_cmd_go w cmd cwd = (0, goTrim out, goTrim err)
    ∧ run_all_cmd w (cmd :: rest) cwd
        = (.RunCmd cmd cwd :: (run_all_cmd w rest cwd).1, (run_all_cmd w rest cwd).2) := by
  constructor
  · simp [run_cmd_go, h]
  · simp [run_all_cmd, run_cmd_go, h]

/-- Witness for C9: in a world where every command fails to start, a
two-command sequence still runs both commands and reports success. -/
theorem run_cmd_start_error_treated_as_success_witness :
    wStartFail.cmdResult "git push" "/d" = .startFailed "" "bash: not found"
    ∧ run_cmd_go wStartFail "git push" "/d" = (0, "", "bash: not found")
    ∧ run_all_cmd wStartFail ["git push", "git push --tags"] "/d"
        = ([.RunCmd "git push" "/d", .RunCmd "git push --tags" "/d"], none) := by
  refine ⟨rfl, ?_, ?_⟩
  · exact (run_cmd_start_error_treated_as_success wStartFail "git push" "/d"
      "" "bash: not found" [] rfl).1
  · have h := (run_cmd_start_error_treated_as_success wStartFail "git push" "/d"
      "" "bash: not found" ["git push --tags"] rfl).2
    rw [h]
    rfl

/-- The asset loop uploads exactly the assets before the first one with an
unknown extension, then fails with that asset's `UnknownAssetType` panic. -/
theorem upload_assets_first_bad (w : World) (slug : String) (pre : List String)
    (bad : String) (post : List String)
    (hgood : ∀ a ∈ pre, ∃ mt, guess_media_type a = .ok mt)
    (hopen : ∀ a ∈ pre, w.openErr a = none)
    (hup : ∀ a ∈ pre, w.uploadErr a = none)
    (hbad : guess_media_type bad
        = .error ("failed to guess mime for given path: " ++ bad)) :
    (upload_assets w slug (pre ++ bad :: post)).2
        = .error ("failed to guess mime for given path: " ++ bad)
    ∧ uploadsOf (upload_assets w slug (pre ++ bad :: post)).1 = pre.length := by
  induction pre with
  | nil => simp [upload_assets, hbad, uploadsOf]
  | cons a pre' ih =>
    obtain ⟨mt, hmt⟩ := hgood a (List.mem_cons_self a pre')
    have ho := hopen a (List.mem_cons_self a pre')
    have hu := hup a (List.mem_cons_self a pre')
    have hrec := ih (fun x hx => hgood x (List.mem_cons_of_mem a hx))
      (fun x hx => hopen x (List.mem_cons_of_mem a hx))
      (fun x hx => hup x (List.mem_cons_of_mem a hx))
    simp only [List.cons_append, upload_assets, hmt, ho, hu]
    refine ⟨hrec.1, ?_⟩
    simp only [uploadsOf, List.filter, List.length_cons, List.append_eq] at hrec ⊢
    omega

/-- Counterexample to C8 as stated: with asset list `["a.zip", "b.tar"]` in a
world where release creation and uploads succeed, publishing does fail with
the `UnknownAssetType` panic for `b.tar`, but one asset (`a.zip`) has already
been uploaded — not zero. -/
theorem create_tag_release_zero_uploads_cex :
    ¬ (∀ (w : World) (addon : Addon) (token : String) (assets : List String),
        (∃ a ∈ assets, ∃ e, guess_media_type a = .error e) →
        (∃ e, (create_tag_release w addon token assets).2 = .error e)
        ∧ uploadsOf (create_tag_release w addon token assets).1 = 0) := by
  intro hclaim
  have h := hclaim wAllOk addonElvui "tok" ["a.zip", "b.tar"]
    ⟨"b.tar", by simp, "failed to guess mime for given path: b.tar", rfl⟩
  have h1 : uploadsOf (create_tag_release wAllOk addonElvui "tok" ["a.zip", "b.tar"]).1
      = 1 := rfl
  rw [h.2] at h1
  cases h1

/-- C8 (amended): when some asset's extension is neither `.zip` nor `.json`,
publishing fails with the `UnknownAssetType` panic at the first such asset,
and exactly the assets preceding it are uploaded — in particular zero uploads
when the offending asset comes first.  (The release object itself is created
before any extension is inspected.) -/
theorem create_tag_release_first_bad_asset (w : World) (addon : Addon)
    (token : String) (pre : List String) (bad : String) (post : List String)
    (hgood : ∀ a ∈ pre, ∃ mt, guess_media_type a = .ok mt)
    (hopen : ∀ a ∈ pre, w.openErr a = none)
    (hup : ∀ a ∈ pre, w.uploadErr a = none)
    (hbad : guess_media_type bad
        = .error ("failed to guess mime for given path: " ++ bad))
    (hcr : w.createReleaseErr addon.Slug addon.Version = none) :
    (create_tag_release w addon token (pre ++ bad :: post)).2
        = .error ("failed to guess mime for given path: " ++ bad)
    ∧ uploadsOf (create_tag_release w addon token (pre ++ bad :: post)).1
        = pre.length := by
  have h := upload_assets_first_bad w addon.Slug pre bad post hgood hopen hup hbad
  simp only [create_tag_release, hcr]
  refine ⟨h.1, ?_⟩
  simp only [uploadsOf, List.filter] at h ⊢
  omega

/-- Witness for C8's amended claim at `pre = ["a.zip"]`, `bad = "b.tar"`. -/
theorem create_tag_release_first_bad_asset_witness :
    (create_tag_release wAllOk addonElvui "tok" ["a.zip", "b.tar"]).2
        = .error "failed to guess mime for given path: b.tar"
    ∧ uploadsOf (create_tag_release wAllOk addonElvui "tok" ["a.zip", "b.tar"]).1 = 1 := by
  have h := create_tag_release_first_bad_asset wAllOk addonElvui "tok"
    ["a.zip"] "b.tar" []
    (by
      intro a ha
      simp only [List.mem_singleton] at ha
      subst ha
      exact ⟨"application/zip", rfl⟩)
    (fun a _ => rfl) (fun a _ => rfl) rfl rfl
  exact ⟨h.1, h.2⟩

/-- Querying the current version always performs exactly the one `git
describe` command. -/
theorem fetch_addon_version_events (w : World) (d : String) :
    (fetch_addon_version w d).1 = [Ev.RunCmd describe_cmd d] := by
  unfold fetch_addon_version
  dsimp only
  split
  · split <;> rfl
  · rfl

/-- C1: for every addon in the fetched descriptor list whose freshly
recloned mirror repository's most recent tag equals `addon.Version`, the
orchestrator performs exactly the reclone and tag-query shell commands and
nothing else — no artifact download, no metadata write, no commit/tag/push,
no hosted-release creation — and processing continues with the remaining
addons. -/
theorem mirror_skip_up_to_date (w : World) (script token : String)
    (addon : Addon) (rest : List Addon)
    (h1 : (run_cmd_go w ("rm -rf " ++ addon.Slug) script).1 = 0)
    (h2 : (run_cmd_go w ("git clone ssh://git@github.com/ogri-la/" ++ addon.Slug) script).1 = 0)
    (h3 : (fetch_addon_version w (w.absPath addon.Slug)).2 = .ok addon.Version) :
    mirror w script token (addon :: rest)
      = (.RunCmd ("rm -rf " ++ addon.Slug) script
          :: .RunCmd ("git clone ssh://git@github.com/ogri-la/" ++ addon.Slug) script
          :: .RunCmd describe_cmd (w.absPath addon.Slug)
          :: (mirror w script token rest).1,
         (mirror w script token rest).2) := by
  have hfr : fetch_repo w addon script
      = ([.RunCmd ("rm -rf " ++ addon.Slug) script,
          .RunCmd ("git clone ssh://git@github.com/ogri-la/" ++ addon.Slug) script],
         none) := by
    simp [fetch_repo, run_all_cmd, h1, h2]
  simp only [mirror, hfr, h3, fetch_addon_version_events, if_pos]
  simp

/-- Witness for C1: with the tag already at `13.33`, the only events are the
three shell commands and the run succeeds. -/
theorem mirror_skip_up_to_date_witness :
    (run_cmd_go wSkip ("rm -rf " ++ addonElvui.Slug) "/sp").1 = 0
    ∧ (run_cmd_go wSkip ("git clone ssh://git@github.com/ogri-la/" ++ addonElvui.Slug) "/sp").1 = 0
    ∧ (fetch_addon_version wSkip (wSkip.absPath addonElvui.Slug)).2 = .ok addonElvui.Version
    ∧ mirror wSkip "/sp" "tok" [addonElvui]
        = ([.RunCmd "rm -rf elvui" "/sp",
            .RunCmd "git clone ssh://git@github.com/ogri-la/elvui" "/sp",
            .RunCmd describe_cmd "/work/elvui"], none) := by
  refine ⟨rfl, rfl, rfl, ?_⟩
  have h := mirror_skip_up_to_date wSkip "/sp" "tok" addonElvui [] rfl rfl rfl
  rw [h]
  rfl

/-- Any path ending in `.zip` has extension `.zip`. -/
theorem goExt_zip_suffix (x : String) : goExt (x ++ ".zip") = ".zip" := by
  unfold goExt
  rw [String.data_append, List.reverse_append]
  show (extScan [] (['p', 'i', 'z', '.'] ++ x.data.reverse)).asString = ".zip"
  simp [extScan]
  rfl

/-- Any path ending in `.json` has extension `.json`. -/
theorem goExt_json_suffix (x : String) : goExt (x ++ ".json") = ".json" := by
  unfold goExt
  rw [String.data_append, List.reverse_append]
  show (extScan [] (['n', 'o', 's', 'j', '.'] ++ x.data.reverse)).asString = ".json"
  simp [extScan]
  rfl

/-- Any path ending in `.zip` gets content type `application/zip`. -/
theorem guess_media_type_zip (x : String) :
    guess_media_type (x ++ ".zip") = .ok "application/zip" := by
  unfold guess_media_type
  rw [goExt_zip_suffix]
  rfl

/-- Any path ending in `.json` gets content type `application/json`. -/
theorem guess_media_type_json (x : String) :
    guess_media_type (x ++ ".json") = .ok "application/json" := by
  unfold guess_media_type
  rw [goExt_json_suffix]
  rfl

/-- The written metadata document's path always gets content type
`application/json`. -/
theorem guess_media_type_release_json (d : String) :
    guess_media_type (d ++ "/release.json") = .ok "application/json" := by
  rw [show ("/release.json" : String) = "/release" ++ ".json" from rfl,
    ← String.append_assoc]
  exact guess_media_type_json (d ++ "/release")

/-- The base name of the written metadata document is `release.json`. -/
theorem goBase_release_json (d : String) : goBase (d ++ "/release.json") = "release.json" := by
  have hne : d ++ "/release.json" ≠ "" := by
    intro h
    have hd := congrArg String.data h
    rw [String.data_append] at hd
    simp at hd
  unfold goBase
  rw [if_neg hne, String.data_append, List.reverse_append]
  show (if List.dropWhile (fun c => c = '/')
      (['n', 'o', 's', 'j', '.', 'e', 's', 'a', 'e', 'l', 'e', 'r', '/'] ++ d.data.reverse) = []
    then ("/" : String)
    else ((List.dropWhile (fun c => c = '/')
        (['n', 'o', 's', 'j', '.', 'e', 's', 'a', 'e', 'l', 'e', 'r', '/'] ++ d.data.reverse)).takeWhile
          (fun c => ¬ c = '/')).reverse.asString) = "release.json"
  simp [List.dropWhile, List.takeWhile]
  rfl

/-- A successful `download_addon` always returns the deterministic cache
path. -/
theorem download_addon_ok_path (w : World) (a : Addon) (d p : String)
    (h : (download_addon w a d).2 = .ok p) :
    p = d ++ "/" ++ (a.Slug ++ "--" ++ a.Version ++ ".zip") := by
  unfold download_addon at h
  dsimp only at h
  split at h
  · exact (Except.ok.inj h).symm
  · split at h
    · cases h
    · split at h
      · cases h
      · split at h
        · cases h
        · split at h
          · cases h
          · exact (Except.ok.inj h).symm

/-- The only effects of `download_addon` are the artifact fetch and the
cache-file write. -/
theorem download_addon_events (w : World) (a : Addon) (d : String) :
    ∀ ev ∈ (download_addon w a d).1,
      ev = .HttpGet a.Url
      ∨ ev = .WriteZip (d ++ "/" ++ (a.Slug ++ "--" ++ a.Version ++ ".zip")) := by
  unfold download_addon
  dsimp only
  split
  · intro ev hev; simp at hev
  · split
    · intro ev hev
      simp only [List.mem_singleton] at hev
      exact Or.inl hev
    · split
      · intro ev hev
        simp only [List.mem_singleton] at hev
        exact Or.inl hev
      · split
        · intro ev hev
          simp only [List.mem_singleton] at hev
          exact Or.inl hev
        · split
          · intro ev hev
            simp only [List.mem_singleton] at hev
            exact Or.inl hev
          · intro ev hev
            rcases List.mem_cons.1 hev with h1 | h1
            · exact Or.inl h1
            · simp only [List.mem_singleton] at h1
              exact Or.inr h1

/-- C2: for every out-of-date addon (in a run where each step succeeds), the
side effects occur in a fixed order — artifact acquisition, metadata write,
then the commit/tag/push/push-tags commands of the mirror repository — and
only after the tag push does the hosted-release creation happen, followed by
exactly two asset uploads: the artifact first, then the metadata document.
A hosted release is therefore never created before its tag is pushed. -/
theorem mirror_update_effect_order (w : World) (script token : String)
    (addon : Addon) (rest : List Addon) (cur zip rj : String)
    (h1 : (run_cmd_go w ("rm -rf " ++ addon.Slug) script).1 = 0)
    (h2 : (run_cmd_go w ("git clone ssh://git@github.com/ogri-la/" ++ addon.Slug) script).1 = 0)
    (h3 : (fetch_addon_version w (w.absPath addon.Slug)).2 = .ok cur)
    (hne : cur ≠ addon.Version)
    (hdl : (download_addon w addon (w.absPath addon.Slug)).2 = .ok zip)
    (hgen : gen_release_json addon (w.absPath addon.Slug) (goBase zip) = .ok rj)
    (hwj : w.writeFileErr (w.absPath addon.Slug ++ "/release.json") = none)
    (hc1 : (run_cmd_go w ("git commit -m " ++ addon.Version ++ " --allow-empty") (w.absPath addon.Slug)).1 = 0)
    (hc2 : (run_cmd_go w ("git tag " ++ addon.Version) (w.absPath addon.Slug)).1 = 0)
    (hc3 : (run_cmd_go w "git push" (w.absPath addon.Slug)).1 = 0)
    (hc4 : (run_cmd_go w "git push --tags" (w.absPath addon.Slug)).1 = 0)
    (hcr : w.createReleaseErr addon.Slug addon.Version = none)
    (ho1 : w.openErr zip = none) (hu1 : w.uploadErr zip = none)
    (ho2 : w.openErr (w.absPath addon.Slug ++ "/release.json") = none)
    (hu2 : w.uploadErr (w.absPath addon.Slug ++ "/release.json") = none) :
    mirror w script token (addon :: rest)
      = (.RunCmd ("rm -rf " ++ addon.Slug) script
          :: .RunCmd ("git clone ssh://git@github.com/ogri-la/" ++ addon.Slug) script
          :: .RunCmd describe_cmd (w.absPath addon.Slug)
          :: ((download_addon w addon (w.absPath addon.Slug)).1
            ++ .WriteReleaseJson (w.absPath addon.Slug ++ "/release.json") rj
            :: .RunCmd ("git commit -m " ++ addon.Version ++ " --allow-empty") (w.absPath addon.Slug)
            :: .RunCmd ("git tag " ++ addon.Version) (w.absPath addon.Slug)
            :: .RunCmd "git push" (w.absPath addon.Slug)
            :: .RunCmd "git push --tags" (w.absPath addon.Slug)
            :: .CreateRelease addon.Slug addon.Version
            :: .UploadAsset addon.Slug (goBase zip) "application/zip"
            :: .UploadAsset addon.Slug "release.json" "application/json"
            :: (mirror w script token rest).1),
         (mirror w script token rest).2)
    ∧ (∀ ev ∈ (download_addon w addon (w.absPath addon.Slug)).1,
        ev = .HttpGet addon.Url
        ∨ ev = .WriteZip (w.absPath addon.Slug ++ "/" ++ (addon.Slug ++ "--" ++ addon.Version ++ ".zip"))) := by
  refine ⟨?_, download_addon_events w addon (w.absPath addon.Slug)⟩
  have hfr : fetch_repo w addon script
      = ([.RunCmd ("rm -rf " ++ addon.Slug) script,
          .RunCmd ("git clone ssh://git@github.com/ogri-la/" ++ addon.Slug) script],
         none) := by
    simp [fetch_repo, run_all_cmd, h1, h2]
  have hzip := download_addon_ok_path w addon (w.absPath addon.Slug) zip hdl
  have hgz : guess_media_type zip = .ok "application/zip" := by
    rw [hzip, ← String.append_assoc]
    exact guess_media_type_zip _
  have hbase := goBase_release_json (w.absPath addon.Slug)
  have hgj := guess_media_type_release_json (w.absPath addon.Slug)
  have htag : tag_addon w addon.Version (w.absPath addon.Slug)
      = ([.RunCmd ("git commit -m " ++ addon.Version ++ " --allow-empty") (w.absPath addon.Slug),
          .RunCmd ("git tag " ++ addon.Version) (w.absPath addon.Slug),
          .RunCmd "git push" (w.absPath addon.Slug),
          .RunCmd "git push --tags" (w.absPath addon.Slug)], none) := by
    simp [tag_addon, run_all_cmd, hc1, hc2, hc3, hc4]
  simp only [mirror, hfr, h3, fetch_addon_version_events, if_neg hne, hdl, hgen,
    write_release_json, hwj, htag, create_tag_release, hcr, upload_assets,
    hgz, ho1, hu1, hgj, ho2, hu2, hbase]
  simp

/-- Witness for C2: the full ordered trace for one out-of-date addon in a
world where every step succeeds. -/
theorem mirror_update_effect_order_witness :
    ("v0" : String) ≠ "13.33"
    ∧ mirror wAllOk "/sp" "tok" [addonElvui]
      = ([.RunCmd "rm -rf elvui" "/sp",
          .RunCmd "git clone ssh://git@github.com/ogri-la/elvui" "/sp",
          .RunCmd describe_cmd "/work/elvui",
          .HttpGet "https://api.tukui.org/v1/download/elvui",
          .WriteZip "/work/elvui/elvui--13.33.zip",
          .WriteReleaseJson "/work/elvui/release.json"
            (json_tmpl_doc_head ++ json_tmpl_entry_name ++ "ElvUI"
              ++ json_tmpl_entry_version ++ "13.33"
              ++ json_tmpl_entry_filename ++ "elvui--13.33.zip"
              ++ json_tmpl_entry_nolib ++ "false"
              ++ json_tmpl_entry_meta ++ release_flavour_json "mainline" 100100
              ++ json_tmpl_entry_tail ++ json_tmpl_doc_tail),
          .RunCmd "git commit -m 13.33 --allow-empty" "/work/elvui",
          .RunCmd "git tag 13.33" "/work/elvui",
          .RunCmd "git push" "/work/elvui",
          .RunCmd "git push --tags" "/work/elvui",
          .CreateRelease "elvui" "13.33",
          .UploadAsset "elvui" "elvui--13.33.zip" "application/zip",
          .UploadAsset "elvui" "release.json" "application/json"], none) := by
  refine ⟨by decide, ?_⟩
  have h := (mirror_update_effect_order wAllOk "/sp" "tok" addonElvui [] "v0"
    "/work/elvui/elvui--13.33.zip"
    (json_tmpl_doc_head ++ json_tmpl_entry_name ++ "ElvUI"
      ++ json_tmpl_entry_version ++ "13.33"
      ++ json_tmpl_entry_filename ++ "elvui--13.33.zip"
      ++ json_tmpl_entry_nolib ++ "false"
      ++ json_tmpl_entry_meta ++ release_flavour_json "mainline" 100100
      ++ json_tmpl_entry_tail ++ json_tmpl_doc_tail)
    rfl rfl rfl (by decide) rfl rfl rfl rfl rfl rfl rfl rfl rfl rfl rfl rfl).1
  rw [h]
  rfl

end TukuiMirror
